import Mathlib

/-!
Verification of the Campus Planner task application (src/js: storage.js,
ui.js, validators.js) against its natural-language specification.

The JavaScript code is shallowly embedded: strings are Lean `String`
(viewed as `List Char`; all inputs of interest are ASCII, so JS UTF-16
code units coincide with `Char`), JS regexes are translated to decidable
Lean functions accepting the same language, machine numbers are `Nat`/`Int`,
dynamically-typed JS values are the inductive `JVal`, and the
localStorage-backed task collection is passed explicitly as a list
(`loadTasks()` results become a parameter, `saveTasks` calls become
returned lists).
-/

namespace Planner

/- ============ JS string primitives ============ -/

/-- Whitespace as used by JS `\s`, `String.prototype.trim` and friends,
restricted to the ASCII range (space, tab, newline, carriage return,
vertical tab, form feed); all strings in this development are ASCII. -/
def isWs (c : Char) : Bool :=
  c == ' ' || c == '\t' || c == '\n' || c == '\r' || c == Char.ofNat 11 || c == Char.ofNat 12

/-- JS `\w`: word characters `[A-Za-z0-9_]`. -/
def isWordChar (c : Char) : Bool :=
  ('A' ≤ c && c ≤ 'Z') || ('a' ≤ c && c ≤ 'z') || ('0' ≤ c && c ≤ '9') || c == '_'

/-- `[A-Za-z]`. -/
def isAsciiLetter (c : Char) : Bool :=
  ('A' ≤ c && c ≤ 'Z') || ('a' ≤ c && c ≤ 'z')

/-- JS `String.prototype.trim`: drop whitespace from both ends. -/
def jsTrim (l : List Char) : List Char :=
  ((l.dropWhile isWs).reverse.dropWhile isWs).reverse

/-- `trim` on `String`. -/
def jsTrimS (s : String) : String := ⟨jsTrim s.data⟩

/-- ASCII lower-casing, modelling JS `toLowerCase` on ASCII text. -/
def lowerChar (c : Char) : Char :=
  if 'A' ≤ c && c ≤ 'Z' then Char.ofNat (c.toNat + 32) else c

def lowerL (l : List Char) : List Char := l.map lowerChar

/- ============ Regex-pattern embeddings (validators.js) ============ -/

/-- State of the scanner for `TITLE_REGEX = ^\S+(?:\s\S+)*$` after the first
character: `prevWs` records whether the previous character was whitespace.
The language of the regex is: nonempty, no leading or trailing whitespace,
no two adjacent whitespace characters. -/
def titleAux (prevWs : Bool) : List Char → Bool
  | [] => !prevWs
  | c :: r => if isWs c then !prevWs && titleAux true r else titleAux false r

/-- `TITLE_REGEX.test`: `^\S+(?:\s\S+)*$`. -/
def titleShape (l : List Char) : Bool :=
  match l with
  | [] => false
  | c :: r => !isWs c && titleAux false r

/-- Case-insensitive equality of words, for the `\1` backreference under
the `i` flag. -/
def lcEq (a b : List Char) : Bool := lowerL a == lowerL b

/-- Scanner state for `DUPLICATE_WORD_REGEX = /\b(\w+)\s+\1\b/i`:
either outside a word (remembering the previous word while the gap since
its end has been whitespace only), or inside a word (remembering the
previous whitespace-adjacent word, if any, and the current word so far). -/
inductive DupState where
  | out (prev : Option (List Char))
  | inw (prev : Option (List Char)) (cur : List Char)

/-- A match of `\b(\w+)\s+\1\b` exists iff two consecutive maximal
word-character runs, separated by whitespace only, are equal up to case:
the leading `\b` forces the capture to start at a run start, the following
`\s+` forces it to extend to the run end, and the trailing `\b` forces the
backreference to cover the whole next run. -/
def dupAux : DupState → List Char → Bool
  | .inw (some w) cur, [] => lcEq w cur
  | _, [] => false
  | .out prev, c :: r =>
    if isWordChar c then dupAux (.inw prev [c]) r
    else if isWs c then dupAux (.out prev) r
    else dupAux (.out none) r
  | .inw prev cur, c :: r =>
    if isWordChar c then dupAux (.inw prev (cur ++ [c])) r
    else
      (match prev with
       | some w => lcEq w cur
       | none => false) ||
      (if isWs c then dupAux (.out (some cur)) r else dupAux (.out none) r)

/-- `DUPLICATE_WORD_REGEX.test`. -/
def hasDupWord (l : List Char) : Bool := dupAux (.out none) l

def hasDupWordS (s : String) : Bool := hasDupWord s.data

/-- `DURATION_REGEX.test`: `^[1-9]\d*$`. -/
def durationShape (l : List Char) : Bool :=
  match l with
  | [] => false
  | c :: r => ('1' ≤ c && c ≤ '9') && r.all Char.isDigit

/-- Scanner for `TAG_REGEX = ^[A-Za-z]+(?:[ -][A-Za-z]+)*$` after the first
character; `prevSep` records whether the previous character was a
separator (space or hyphen). -/
def tagAux (prevSep : Bool) : List Char → Bool
  | [] => !prevSep
  | c :: r =>
    if c == ' ' || c == '-' then !prevSep && tagAux true r
    else isAsciiLetter c && tagAux false r

/-- `TAG_REGEX.test`. -/
def tagShape (l : List Char) : Bool :=
  match l with
  | [] => false
  | c :: r => isAsciiLetter c && tagAux false r

/-- Numeric value of a digit character. -/
def digitVal (c : Char) : Nat := c.toNat - 48

/-- `DATE_REGEX.test`: `^\d{4}-(0[1-9]|1[0-2])-(0[1-9]|[12]\d|3[01])$`.
For two-digit strings the month alternation accepts exactly values 1..12
and the day alternation exactly values 1..31. -/
def dateShape (l : List Char) : Bool :=
  match l with
  | [y1, y2, y3, y4, h1, m1, m2, h2, d1, d2] =>
    y1.isDigit && y2.isDigit && y3.isDigit && y4.isDigit &&
    h1 == '-' && h2 == '-' && m1.isDigit && m2.isDigit && d1.isDigit && d2.isDigit &&
    (1 ≤ digitVal m1 * 10 + digitVal m2 && digitVal m1 * 10 + digitVal m2 ≤ 12) &&
    (1 ≤ digitVal d1 * 10 + digitVal d2 && digitVal d1 * 10 + digitVal d2 ≤ 31)
  | _ => false

/-- `trimmed.split("-").map(Number)` on a string of `DATE_REGEX` shape. -/
def parseYMD (l : List Char) : Nat × Nat × Nat :=
  match l with
  | [y1, y2, y3, y4, _, m1, m2, _, d1, d2] =>
    (digitVal y1 * 1000 + digitVal y2 * 100 + digitVal y3 * 10 + digitVal y4,
     digitVal m1 * 10 + digitVal m2,
     digitVal d1 * 10 + digitVal d2)
  | _ => (0, 0, 0)

/- ============ Calendar arithmetic (JS Date semantics) ============ -/

def isLeap (y : Nat) : Bool := y % 4 == 0 && (y % 100 != 0 || y % 400 == 0)

def daysInMonth (y m : Nat) : Nat :=
  if m == 2 then (if isLeap y then 29 else 28)
  else if m == 4 || m == 6 || m == 9 || m == 11 then 30 else 31

/-- Normalisation performed by the JS `Date` constructor and setters for a
month in 1..12 and a day in 1..31: a day beyond the month length rolls
over into the following month (at most one month, since day ≤ 31;
December has 31 days so the year-rollover branch is unreachable here, it
is kept for totality). The month is 1-based throughout this model. -/
def normDate (y m d : Nat) : Nat × Nat × Nat :=
  if d ≤ daysInMonth y m then (y, m, d)
  else if m == 12 then (y + 1, 1, d - 31)
  else (y, m + 1, d - daysInMonth y m)

/-- `new Date(year, month - 1, day)`: two-digit years (0..99) are
interpreted as 1900..1999 by the constructor. -/
def mkDateJS (y m d : Nat) : Nat × Nat × Nat :=
  normDate (if y ≤ 99 then 1900 + y else y) m d

/-- Chronological strict order on normalised calendar dates: JS `Date`
objects compare by timestamp, which for real calendar dates is the
lexicographic order on (year, month, day). -/
def dLt (a b : Nat × Nat × Nat) : Bool :=
  a.1 < b.1 || (a.1 == b.1 && (a.2.1 < b.2.1 || (a.2.1 == b.2.1 && a.2.2 < b.2.2)))

/-- Strict order on (date, milliseconds since local midnight) pairs:
timestamp order for values in the same locale. -/
def dtLt (a b : (Nat × Nat × Nat) × Nat) : Bool :=
  dLt a.1 b.1 || (a.1 == b.1 && a.2 < b.2)

/-- The calendar instant at which a validation call runs: local calendar
date plus the time of day in milliseconds. The code reads `new Date()`
several times inside one call, milliseconds apart; the model treats the
whole call as running at one instant. -/
structure NowT where
  y : Nat
  m : Nat
  d : Nat
  tod : Nat
deriving DecidableEq, Repr

/- ============ validators.js: field validators ============ -/

/-- The `{valid, error}` record every validator returns. -/
structure VResult where
  valid : Bool
  error : String
deriving DecidableEq, Repr

/-- `validateTitle` on an actual string (the non-string paths live in
`validateTitleV`). -/
def validateTitleS (title : String) : VResult :=
  if title == "" then ⟨false, "Title is required"⟩
  else
    let trimmed := jsTrimS title
    if trimmed.length < 3 then ⟨false, "Title must be at least 3 characters"⟩
    else if trimmed.length > 100 then ⟨false, "Title must not exceed 100 characters"⟩
    else if title != trimmed then ⟨false, "Title cannot have leading or trailing spaces"⟩
    else if !titleShape title.data then ⟨false, "Title cannot contain consecutive spaces"⟩
    else if hasDupWordS title then ⟨false, "Title contains duplicate words"⟩
    else ⟨true, ""⟩

/-- `validateDuration` after the `String(duration).trim()` coercion. -/
def validateDurationS (duration : String) : VResult :=
  let durationStr := jsTrimS duration
  if !durationShape durationStr.data then
    ⟨false, "Duration must be a positive number (e.g., 120)"⟩
  else
    let numValue := durationStr.data.foldl (fun a c => a * 10 + digitVal c) 0
    if numValue == 0 then ⟨false, "Duration must be greater than 0"⟩
    else if numValue > 1440 then ⟨false, "Duration cannot exceed 24 hours (1440 minutes)"⟩
    else ⟨true, ""⟩

/-- `validateDueDate` on an actual string, at instant `now`: check the
regex shape on the trimmed string, reconstruct `new Date(y, m-1, d)` and
reject when year/month/day do not round-trip, then reject dates before
midnight one year ago (`setFullYear(-1)` + `setHours(0,0,0,0)`) or after
`now` plus two years (`setFullYear(+2)`, keeping the time of day). -/
def validateDueDateS (now : NowT) (date : String) : VResult :=
  if date == "" then ⟨false, "Due date is required"⟩
  else if !dateShape (jsTrimS date).data then ⟨false, "Date must be in YYYY-MM-DD format"⟩
  else if mkDateJS (parseYMD (jsTrimS date).data).1 (parseYMD (jsTrimS date).data).2.1
      (parseYMD (jsTrimS date).data).2.2 != parseYMD (jsTrimS date).data then
    ⟨false, "Invalid date (e.g., Feb 30 does not exist)"⟩
  else if dLt (mkDateJS (parseYMD (jsTrimS date).data).1 (parseYMD (jsTrimS date).data).2.1
      (parseYMD (jsTrimS date).data).2.2) (normDate (now.y - 1) now.m now.d) then
    ⟨false, "Date cannot be more than 1 year in the past"⟩
  else if dtLt (normDate (now.y + 2) now.m now.d, now.tod)
      (mkDateJS (parseYMD (jsTrimS date).data).1 (parseYMD (jsTrimS date).data).2.1
        (parseYMD (jsTrimS date).data).2.2, 0) then
    ⟨false, "Date cannot be more than 2 years in the future"⟩
  else ⟨true, ""⟩

/-- `validateTag` on an actual string. -/
def validateTagS (tag : String) : VResult :=
  if tag == "" then ⟨false, "Tag is required"⟩
  else
    let trimmed := jsTrimS tag
    if trimmed.length < 3 then ⟨false, "Tag must be at least 3 characters"⟩
    else if trimmed.length > 30 then ⟨false, "Tag must not exceed 30 characters"⟩
    else if !tagShape trimmed.data then
      ⟨false, "Tag can only contain letters, spaces, or hyphens"⟩
    else ⟨true, ""⟩

/- ============ Dynamically-typed JS values ============ -/

/-- JS values as seen by the validators and `importData`: primitives,
arrays and (field-list) objects. Object keys are assumed distinct, in
insertion order. -/
inductive JVal where
  | vnull
  | vundef
  | vbool (b : Bool)
  | vnum (n : Int)
  | vstr (s : String)
  | varr (elems : List JVal)
  | vobj (fields : List (String × JVal))

mutual

/-- JS `String(v)` conversion. `Array.prototype.toString` joins the
elements with commas, rendering `null` and `undefined` elements as the
empty string. -/
def jsToString : JVal → String
  | .vnull => "null"
  | .vundef => "undefined"
  | .vbool b => cond b "true" "false"
  | .vnum n => toString n
  | .vstr s => s
  | .vobj _ => "[object Object]"
  | .varr l => String.intercalate "," (jsArrElems l)

def jsArrElems : List JVal → List String
  | [] => []
  | .vnull :: r => "" :: jsArrElems r
  | .vundef :: r => "" :: jsArrElems r
  | x :: r => jsToString x :: jsArrElems r

end

/-- `validateTitle` over an arbitrary JS value: `!title` catches the falsy
values (`null`, `undefined`, `""`, `0`, `false`) and
`typeof title !== "string"` catches every remaining non-string, so every
non-string input takes the "Title is required" path. -/
def validateTitleV (v : JVal) : VResult :=
  match v with
  | .vstr s => validateTitleS s
  | _ => ⟨false, "Title is required"⟩

/-- `validateDuration` over an arbitrary JS value: only `null`,
`undefined` and `""` are rejected up front; every other value is coerced
with `String(duration)` and validated as a string. -/
def validateDurationV (v : JVal) : VResult :=
  match v with
  | .vnull => ⟨false, "Duration is required"⟩
  | .vundef => ⟨false, "Duration is required"⟩
  | .vstr "" => ⟨false, "Duration is required"⟩
  | _ => validateDurationS (jsToString v)

/-- `validateDueDate` over an arbitrary JS value (same falsy/typeof guard
as the title validator). -/
def validateDueDateV (now : NowT) (v : JVal) : VResult :=
  match v with
  | .vstr s => validateDueDateS now s
  | _ => ⟨false, "Due date is required"⟩

/-- `validateTag` over an arbitrary JS value. -/
def validateTagV (v : JVal) : VResult :=
  match v with
  | .vstr s => validateTagS s
  | _ => ⟨false, "Tag is required"⟩

/-- `validatePriority`: valid exactly on the three literal enum strings
(`includes` compares with strict equality, so no non-string passes). -/
def validatePriorityV (v : JVal) : VResult :=
  match v with
  | .vstr s =>
    if s == "High" || s == "Medium" || s == "Low" then ⟨true, ""⟩
    else ⟨false, "Priority must be High, Medium, or Low"⟩
  | _ => ⟨false, "Priority must be High, Medium, or Low"⟩

/-- Absent input in the sense of the spec: `null` or `undefined`. -/
def isAbsent (v : JVal) : Bool :=
  match v with
  | .vnull => true
  | .vundef => true
  | _ => false

/- ============ validators.js: highlightMatches ============ -/

/-- The per-character map of `text.replace(/[&<>"']/g, ...)`. -/
def escMap (c : Char) : List Char :=
  if c == '&' then "&amp;".data
  else if c == '<' then "&lt;".data
  else if c == '>' then "&gt;".data
  else if c == '"' then "&quot;".data
  else if c == Char.ofNat 39 then "&#39;".data
  else [c]

/-- The escaping pass of `highlightMatches`. -/
def escapeHtmlChars : List Char → List Char
  | [] => []
  | c :: r => escMap c ++ escapeHtmlChars r

/-- Split `l` at the first occurrence of the literal pattern `pat`,
returning the text before and after the match. Models finding the first
match of a literal (no-metacharacter, non-global) regex, which is what
`escaped.replace(regex, ...)` does for such a pattern. -/
def splitFirst (pat : List Char) : List Char → Option (List Char × List Char)
  | [] => if pat == [] then some ([], []) else none
  | c :: r =>
    if pat.isPrefixOf (c :: r) then some ([], (c :: r).drop pat.length)
    else (splitFirst pat r).map (fun q => (c :: q.1, q.2))

/-- `highlightMatches(text, regex)` for a literal pattern `pat`: the text
is HTML-escaped first, and the pattern is then matched against the
ESCAPED text, the first match being wrapped in mark tags. -/
def highlightLit (text pat : String) : String :=
  if text == "" then text
  else
    let escaped := escapeHtmlChars text.data
    match splitFirst pat.data escaped with
    | none => ⟨escaped⟩
    | some q => ⟨q.1 ++ "<mark>".data ++ pat.data ++ "</mark>".data ++ q.2⟩

/- ============ storage.js: task lifecycle (addTask and friends) ============ -/

/-- A task record as stored by `addTask`/`updateTask`. -/
structure StoredTask where
  id : String
  title : String
  dueDate : String
  duration : String
  tag : String
  priority : Option String
  location : Option String
  status : String
  completed : Bool
  createdAt : String
  updatedAt : String
  completedAt : Option String
deriving DecidableEq, Repr

/-- The `taskData` argument of `addTask` (the add-task form fields, plus
an optional `status` key since the code consults `taskData.status`). -/
structure TaskData where
  title : String
  dueDate : String
  duration : String
  tag : String
  priority : Option String := none
  location : Option String := none
  status : Option String := none
deriving DecidableEq, Repr

/-- `addTask`: loads the collection, appends the new record and saves.
`status` is `taskData.status || "Todo"` (absent or empty means `"Todo"`),
`completed` is unconditionally `false`, and both timestamps are `now`.
The fresh id and the timestamp are parameters of the model. -/
def addTask (now newId : String) (d : TaskData) (store : List StoredTask) : List StoredTask :=
  store ++ [{ id := newId
              title := d.title
              dueDate := d.dueDate
              duration := d.duration
              tag := d.tag
              priority := d.priority
              location := d.location
              status := match d.status with
                        | some s => if s == "" then "Todo" else s
                        | none => "Todo"
              completed := false
              createdAt := now
              updatedAt := now
              completedAt := none }]

/-- The `updates` argument of `updateTask`: any subset of the mutable
fields; `completedAt := some none` models setting the field to `null`. -/
structure TaskUpdates where
  title : Option String := none
  dueDate : Option String := none
  duration : Option String := none
  tag : Option String := none
  priority : Option String := none
  location : Option String := none
  status : Option String := none
  completed : Option Bool := none
  completedAt : Option (Option String) := none
deriving DecidableEq, Repr

/-- The spread `{...tasks[index], ...updates, updatedAt: now}`. -/
def applyUpdates (now : String) (u : TaskUpdates) (t : StoredTask) : StoredTask :=
  { id := t.id
    title := u.title.getD t.title
    dueDate := u.dueDate.getD t.dueDate
    duration := u.duration.getD t.duration
    tag := u.tag.getD t.tag
    priority := match u.priority with
                | some p => some p
                | none => t.priority
    location := match u.location with
                | some l => some l
                | none => t.location
    status := u.status.getD t.status
    completed := u.completed.getD t.completed
    createdAt := t.createdAt
    updatedAt := now
    completedAt := u.completedAt.getD t.completedAt }

/-- `updateTask`: replace the first task whose id matches (`findIndex`);
if no task matches, nothing is saved and the collection is unchanged. -/
def updateTask (now id : String) (u : TaskUpdates) : List StoredTask → List StoredTask
  | [] => []
  | t :: rest =>
    if t.id == id then applyUpdates now u t :: rest
    else t :: updateTask now id u rest

/-- `completeTask`. -/
def completeTask (now id : String) (store : List StoredTask) : List StoredTask :=
  updateTask now id { status := some "Completed", completed := some true,
                      completedAt := some (some now) } store

/-- `uncompleteTask`. -/
def uncompleteTask (now id : String) (store : List StoredTask) : List StoredTask :=
  updateTask now id { status := some "Todo", completed := some false,
                      completedAt := some none } store

/-- The spec invariant, as a decidable check over a stored collection:
every task has `completed == true` iff `status == "Completed"`. -/
def invB (store : List StoredTask) : Bool :=
  store.all (fun t => t.completed == (t.status == "Completed"))

/-- An `updates` record touches the status/completed pair consistently:
either it leaves both alone, or it sets both so that
`completed = true ↔ status = "Completed"` (as `completeTask` and
`uncompleteTask` do). -/
def consistentU (u : TaskUpdates) : Prop :=
  (u.status = none ∧ u.completed = none) ∨
  (∃ st b, u.status = some st ∧ u.completed = some b ∧ (b = true ↔ st = "Completed"))

/-- Collections reachable from the empty store by the lifecycle
operations, with `addTask` never handed `status = "Completed"` and
`updateTask` only handed consistent updates. -/
inductive Reach : List StoredTask → Prop where
  | init : Reach []
  | add (now newId : String) (d : TaskData) (s : List StoredTask) :
      Reach s → d.status ≠ some "Completed" → Reach (addTask now newId d s)
  | upd (now id : String) (u : TaskUpdates) (s : List StoredTask) :
      Reach s → consistentU u → Reach (updateTask now id u s)
  | compl (now id : String) (s : List StoredTask) :
      Reach s → Reach (completeTask now id s)
  | uncompl (now id : String) (s : List StoredTask) :
      Reach s → Reach (uncompleteTask now id s)

/- ============ Query layer (ui.js / storage.js) ============ -/

/-- A task as consumed by the search, sort and aggregation functions.
`status` and `location` may be absent (`t.status || ""` style defaulting
happens at the use sites); `completed` is read for truthiness. -/
structure Task where
  id : String
  title : String
  dueDate : String
  duration : String
  tag : String
  status : Option String := none
  location : Option String := none
  completed : Bool := false
deriving DecidableEq, Repr

/-- JS `falsyOr`: `x || dflt` for an optional string (absent or empty
string is falsy). -/
def orDefault (x : Option String) (dflt : String) : String :=
  match x with
  | some s => if s == "" then dflt else s
  | none => dflt

/-- `filterTasksByRegex` (the task sequence it passes to `renderTasks`):
drop completed tasks, then keep the tasks where the compiled pattern
matches any of title, tag, dueDate, `status || ""`, `location || ""`.
The compiled regex is modelled as the predicate `r` (its `test` method
on strings); the loaded collection is the parameter `ts`. -/
def filterTasksByRegexSeq (r : String → Bool) (ts : List Task) : List Task :=
  (ts.filter (fun t => !t.completed)).filter
    (fun t => r t.title || r t.tag || r t.dueDate ||
      r (orDefault t.status "") || r (orDefault t.location ""))

/-- Days from the civil epoch 1970-01-01 for a (proleptic Gregorian)
calendar date, the day count underlying JS `Date` timestamps. -/
def daysFromCivil (y m d : Int) : Int :=
  let yy := if m ≤ 2 then y - 1 else y
  let era := (if yy ≥ 0 then yy else yy - 399) / 400
  let yoe := yy - era * 400
  let doy := (153 * (if m > 2 then m - 3 else m + 9) + 2) / 5 + d - 1
  let doe := yoe * 365 + yoe / 4 - yoe / 100 + doy
  era * 146097 + doe - 719468

/-- `new Date(s)` for a date-only string: an ISO `YYYY-MM-DD` string
denoting a real calendar date parses to midnight UTC of that day (the
result here is the day number); anything else yields an invalid date
(`NaN`, modelled as `none`). -/
def parseISODay (s : String) : Option Int :=
  if dateShape s.data then
    let p := parseYMD s.data
    if p.2.2 ≤ daysInMonth p.1 p.2.1 then
      some (daysFromCivil (Int.ofNat p.1) (Int.ofNat p.2.1) (Int.ofNat p.2.2))
    else none
  else none

/-- `getTasksDueInDays(days)` at local calendar day `todayDay` in an
environment `offE` minutes east of UTC: `today` is local midnight
(`new Date()` + `setHours(0,0,0,0)`), `futureDate` is local midnight
`days` later, and each task's `dueDate` parses to UTC midnight; all three
instants are expressed in minutes since the epoch. Comparisons against an
invalid date (`NaN`) are false, so such tasks are dropped. -/
def getTasksDueInDays (offE : Int) (todayDay : Int) (days : Int) (ts : List Task) : List Task :=
  let todayMin : Int := todayDay * 1440 - offE
  let futureMin : Int := (todayDay + days) * 1440 - offE
  ts.filter (fun t =>
    match parseISODay t.dueDate with
    | some dd => decide (todayMin ≤ dd * 1440) && decide (dd * 1440 ≤ futureMin) && !t.completed
    | none => false)

/-- JS `parseInt` (base 10): skip leading whitespace, optional sign, then
the longest run of leading digits; `NaN` (here `none`) if there is none.
(The hexadecimal `0x` prefix is not modelled; no caller produces one.) -/
def parseIntJS (s : String) : Option Int :=
  let l := s.data.dropWhile isWs
  let core := fun (ds : List Char) =>
    let run := ds.takeWhile Char.isDigit
    if run.isEmpty then none
    else some (run.foldl (fun a c => a * 10 + digitVal c) 0)
  match l with
  | '-' :: rest => (core rest).map (fun n => -(Int.ofNat n))
  | '+' :: rest => (core rest).map Int.ofNat
  | _ => (core l).map Int.ofNat

/-- `aVal > bVal` on possibly-NaN numbers: any comparison with NaN is
false. -/
def optGt (a b : Option Int) : Bool :=
  match a, b with
  | some x, some y => x > y
  | _, _ => false

/-- `aVal < bVal` on possibly-NaN numbers. -/
def optLt (a b : Option Int) : Bool :=
  match a, b with
  | some x, some y => x < y
  | _, _ => false

/-- JS string `>` (lexicographic on code units). -/
def strGt (a b : String) : Bool := decide (b < a)

/-- JS string `<`. -/
def strLt (a b : String) : Bool := decide (a < b)

/-- JS `toLowerCase` (ASCII model). -/
def lowerStr (s : String) : String := ⟨lowerL s.data⟩

/-- The `sortTasks` comparator, rephrased as the "keep `a` before `b`"
relation `cmp(a,b) ≤ 0` that a stable sort consults: the comparator
returns 1 when `aVal > bVal` (ascending) or `aVal < bVal` (descending)
and -1 otherwise, with no equal case, so `a` stays before `b` exactly
when the strict comparison fails. An unknown field makes the comparator
return 0 for every pair. -/
def sortLe (field order : String) (a b : Task) : Bool :=
  if field == "dueDate" then
    if order == "asc" then !optGt (parseISODay a.dueDate) (parseISODay b.dueDate)
    else !optLt (parseISODay a.dueDate) (parseISODay b.dueDate)
  else if field == "title" then
    if order == "asc" then !strGt (lowerStr a.title) (lowerStr b.title)
    else !strLt (lowerStr a.title) (lowerStr b.title)
  else if field == "duration" then
    if order == "asc" then !optGt (parseIntJS a.duration) (parseIntJS b.duration)
    else !optLt (parseIntJS a.duration) (parseIntJS b.duration)
  else true

/-- The sequence `sortTasks` passes to `renderTasks`: the non-completed
tasks, stably sorted by the comparator (modern JS engines implement
`Array.prototype.sort` as a stable merge sort; `mergeSort` keeps the left
element exactly when the relation holds, i.e. when the comparator is
≤ 0). -/
def sortTasksSeq (field order : String) (ts : List Task) : List Task :=
  (ts.filter (fun t => !t.completed)).mergeSort (sortLe field order)

/-- One step of `getTasksByTagGrouped`'s loop when it does NOT throw:
push the task onto its tag's own-property list, creating the
(insertion-ordered) own key on first sight. -/
def groupInsert : List (String × List Task) → Task → List (String × List Task)
  | [], t => [(t.tag, [t])]
  | kv :: rest, t =>
    if kv.1 == t.tag then (kv.1, kv.2 ++ [t]) :: rest
    else kv :: groupInsert rest t

/-- The keys the plain object `grouped = {}` INHERITS from
`Object.prototype`. Every one of them is bound to a truthy value (a
function, or `Object.prototype` itself for the `__proto__` accessor), so
a property read on `{}` at one of these names is truthy without any own
property being set. -/
def protoKeys : List String :=
  ["constructor", "hasOwnProperty", "isPrototypeOf", "propertyIsEnumerable",
   "toLocaleString", "toString", "valueOf", "__proto__",
   "__defineGetter__", "__defineSetter__", "__lookupGetter__", "__lookupSetter__"]

/-- The `tasks.forEach` loop of `getTasksByTagGrouped`, with the
prototype chain of the `grouped = {}` object modelled: `grouped[t.tag]`
reads the own property first (always an array here, so truthy: skip the
init and push); with no own property, a tag naming an inherited
`Object.prototype` member reads a truthy non-array, so the
`if (!grouped[t.tag])` init is SKIPPED and `grouped[t.tag].push(t)`
throws a TypeError (`none`); otherwise the read is `undefined`, the own
key is initialised to `[]` and the task pushed. -/
def groupLoop (m : List (String × List Task)) : List Task → Option (List (String × List Task))
  | [] => some m
  | t :: rest =>
    if m.any (fun kv => kv.1 == t.tag) then groupLoop (groupInsert m t) rest
    else if protoKeys.contains t.tag then none
    else groupLoop (m ++ [(t.tag, [t])]) rest

/-- `getTasksByTagGrouped`: the grouped object, modelled as an
insertion-ordered association list of own properties; when the loop
throws, the catch block returns the empty object `{}`. -/
def getTasksByTagGrouped (ts : List Task) : List (String × List Task) :=
  match groupLoop [] ts with
  | some m => m
  | none => []

/-- Property read `grouped[tag]` on the model. -/
def findGroup (m : List (String × List Task)) (tag : String) : Option (List Task) :=
  (m.find? (fun kv => kv.1 == tag)).map (fun kv => kv.2)

/- ============ storage.js: importData ============ -/

/-- Property lookup `data[key]` on an object's field list. -/
def lookupField (fields : List (String × JVal)) (key : String) : Option JVal :=
  (fields.find? (fun kv => kv.1 == key)).map (fun kv => kv.2)

def requiredFields : List String := ["id", "title", "dueDate", "duration", "tag"]

/-- The inner `for (const field of requiredFields) if (!(field in task))`
loop for one task: the first required key the task lacks, as the error
message the function returns. The `in` operator looks only at key
PRESENCE, never at values. On an array no required name is a key; on a
primitive `in` throws a TypeError, which the surrounding try/catch turns
into a failure result (the model uses the message "TypeError" for it). -/
def checkTask (t : JVal) : Option String :=
  match t with
  | .vobj fs =>
    (requiredFields.find? (fun f => !fs.any (fun kv => kv.1 == f))).map
      (fun f => "Task missing required field: " ++ f)
  | .varr _ => some "Task missing required field: id"
  | _ => some "TypeError"

/-- The task-checking loop: first failing task wins. -/
def checkTasks (ts : List JVal) : Option String := ts.findSome? checkTask

/-- What `importData` returns and writes: `savedTasks` is the argument of
the `saveTasks` call if one happens (the model assumes localStorage
itself accepts the write), `savedSettings` likewise for `saveSettings`. -/
structure ImportOutcome where
  success : Bool
  message : String
  savedTasks : Option (List JVal)
  savedSettings : Option JVal

/-- `importData`: reject non-objects (`!data || typeof data !== "object"`;
arrays are objects but have no `tasks` key), reject a missing/falsy/
non-array `tasks`, reject any task missing one of the five required keys,
otherwise save `data.tasks` UNCHANGED and optionally save `settings`. -/
def importData (data : JVal) : ImportOutcome :=
  match data with
  | .vobj fields =>
    match lookupField fields "tasks" with
    | some (.varr ts) =>
      match checkTasks ts with
      | some msg => ⟨false, msg, none, none⟩
      | none =>
        let settings :=
          match lookupField fields "settings" with
          | some (JVal.vobj sfs) => some (JVal.vobj sfs)
          | some (JVal.varr se) => some (JVal.varr se)
          | _ => none
        ⟨true, "Successfully imported " ++ toString ts.length ++ " tasks", some ts, settings⟩
    | _ => ⟨false, "Missing or invalid tasks array", none, none⟩
  | .varr _ => ⟨false, "Missing or invalid tasks array", none, none⟩
  | _ => ⟨false, "Invalid data format", none, none⟩

/- ============ Predicates taken from the claims' wording ============ -/

/-- "no leading or trailing space": neither end of the string is a
whitespace character. -/
def noEdgeWs (l : List Char) : Bool :=
  (match l.head? with
   | some c => !isWs c
   | none => true) &&
  (match l.getLast? with
   | some c => !isWs c
   | none => true)

/-- "no doubled internal space": no two adjacent whitespace characters. -/
def noDoubleWs : List Char → Bool
  | a :: b :: r => !(isWs a && isWs b) && noDoubleWs (b :: r)
  | _ => true

/-- Modelled from the spec wording of the search contract (claim C2):
"the matcher is applied to each non-completed task's title, tag, dueDate,
status (default "Todo" if absent), and location (default empty) fields; a
task matches if the pattern matches ANY of these fields". This is the
claimed selection predicate, to be compared with `filterTasksByRegexSeq`,
which the source builds with `t.status || ""`. -/
def specSearchSelects (r : String → Bool) (t : Task) : Bool :=
  !t.completed &&
    (r t.title || r t.tag || r t.dueDate ||
     r (orDefault t.status "Todo") || r (orDefault t.location ""))

/-- The due-date acceptance condition as claim C4 states it: YYYY-MM-DD
shape, the three numeric components round-trip through the JS date
reconstruction, and the date lies within the window from one year in the
past (midnight) to two years in the future, both bounds derived from the
same `now`. Built from the same calendar primitives as the validator, to
be compared with `validateDueDateS`. -/
def dueDateOk (now : NowT) (date : String) : Bool :=
  dateShape (jsTrimS date).data &&
  (mkDateJS (parseYMD (jsTrimS date).data).1 (parseYMD (jsTrimS date).data).2.1
    (parseYMD (jsTrimS date).data).2.2 == parseYMD (jsTrimS date).data) &&
  !dLt (mkDateJS (parseYMD (jsTrimS date).data).1 (parseYMD (jsTrimS date).data).2.1
    (parseYMD (jsTrimS date).data).2.2) (normDate (now.y - 1) now.m now.d) &&
  !dtLt (normDate (now.y + 2) now.m now.d, now.tod)
    (mkDateJS (parseYMD (jsTrimS date).data).1 (parseYMD (jsTrimS date).data).2.1
      (parseYMD (jsTrimS date).data).2.2, 0)

/- ==================== Theorems ==================== -/

/-- C6. The claim says highlighting matches the pattern against the
ORIGINAL text's content only, so that no match can begin inside or
overlap a character sequence introduced by the escaping step. The code
instead escapes first and then matches against the escaped text: for the
text `"&"` (which contains no occurrence of `"amp"`, second conjunct) and
a pattern matching `"amp"`, the returned markup wraps the `amp` inside
the `&amp;` escape sequence, contradicting the claim. -/
theorem c6_highlight_matches_inside_escape :
    highlightLit "&" "amp" = "&<mark>amp</mark>;" ∧
    splitFirst "amp".data "&".data = none := by
  constructor <;> rfl

/-- C2, counterexample. The claim says a task with no status field
matches any pattern that matches the string "Todo". The code tests
`regex.test(t.status || "")`, defaulting to the EMPTY string: with the
matcher of the pattern `^Todo$` (modelled by `fun s => s == "Todo"`) and
a non-completed task whose other fields do not match, the code selects
nothing, while the claimed selection predicate (spec-modelled
`specSearchSelects`, defaulting status to "Todo") selects the task. -/
theorem c2_counterexample_status_default :
    filterTasksByRegexSeq (fun s => s == "Todo")
      [{ id := "t2", title := "aaa", dueDate := "ccc", duration := "60", tag := "bbb" }] = [] ∧
    specSearchSelects (fun s => s == "Todo")
      { id := "t2", title := "aaa", dueDate := "ccc", duration := "60", tag := "bbb" } = true := by
  constructor <;> rfl

/-- C2, amended. For every matcher and collection, the search filter
selects exactly the tasks whose `completed` is not true and where the
matcher accepts title, tag, dueDate, status defaulting to the EMPTY
string when absent, or location defaulting to the empty string. -/
theorem c2_filter_characterization (r : String → Bool) (ts : List Task) :
    filterTasksByRegexSeq r ts =
      ts.filter (fun t => !t.completed &&
        (r t.title || r t.tag || r t.dueDate ||
         r (orDefault t.status "") || r (orDefault t.location ""))) := by
  unfold filterTasksByRegexSeq
  rw [List.filter_filter]
  exact List.filter_congr (fun t _ => by rw [Bool.and_comm])

/-- C7. Sorting an already-sorted task sequence by the same field and
order returns it unchanged (in particular the sequence of ids is
identical), for every field and order string: the stable merge sort does
not move any element when the comparator already concedes `a` before `b`
for every adjacent pair, which holds for equal keys since the comparator
answers -1 (keep order) whenever the strict comparison fails. -/
theorem c7_sort_idempotent (field order : String) (ts : List Task)
    (h : (ts.filter (fun t => !t.completed)).Pairwise
      (fun a b => sortLe field order a b = true)) :
    sortTasksSeq field order ts = ts.filter (fun t => !t.completed) := by
  unfold sortTasksSeq
  exact List.mergeSort_of_sorted h

/-- C7, witness: a concrete duration-ascending sort of a collection that
is already sorted and contains two tasks with EQUAL duration keys (plus a
completed task that the function drops) returns the filtered sequence
unchanged. -/
theorem c7_sort_idempotent_witness :
    sortTasksSeq "duration" "asc"
      [{ id := "a", title := "A", dueDate := "2026-01-01", duration := "60", tag := "x" },
       { id := "c", title := "C", dueDate := "2026-01-02", duration := "30", tag := "x",
         completed := true },
       { id := "b", title := "B", dueDate := "2026-01-03", duration := "60", tag := "y" }] =
      [{ id := "a", title := "A", dueDate := "2026-01-01", duration := "60", tag := "x" },
       { id := "b", title := "B", dueDate := "2026-01-03", duration := "60", tag := "y" }] := by
  have h := c7_sort_idempotent "duration" "asc"
    [{ id := "a", title := "A", dueDate := "2026-01-01", duration := "60", tag := "x" },
     { id := "c", title := "C", dueDate := "2026-01-02", duration := "30", tag := "x",
       completed := true },
     { id := "b", title := "B", dueDate := "2026-01-03", duration := "60", tag := "y" }]
    (by decide)
  rw [h]
  rfl

/-- C10. `importData` checks only the PRESENCE of the keys id, title,
dueDate, duration, tag on each imported task, never their values: any
object whose `tasks` array consists of records carrying those five keys
is imported successfully, and the records are handed to `saveTasks`
unchanged. -/
theorem c10_import_presence_only (fields : List (String × JVal)) (ts : List JVal)
    (htasks : lookupField fields "tasks" = some (.varr ts))
    (hkeys : ∀ t ∈ ts, ∃ fs, t = JVal.vobj fs ∧
      ∀ f ∈ requiredFields, fs.any (fun kv => kv.1 == f) = true) :
    (importData (.vobj fields)).success = true ∧
    (importData (.vobj fields)).savedTasks = some ts := by
  have hchk : checkTasks ts = none := by
    unfold checkTasks
    rw [List.findSome?_eq_none_iff]
    intro t ht
    obtain ⟨fs, rfl, hall⟩ := hkeys t ht
    unfold checkTask
    rw [Option.map_eq_none']
    rw [List.find?_eq_none]
    intro f hf
    simp [hall f hf]
  simp only [importData, htasks, hchk]
  exact ⟨trivial, trivial⟩

/-- C10, witness: a task whose values are field-invalid (empty title,
malformed due date, duration 0 — the last two conjuncts check they are
indeed rejected by the field validators) but which carries the five
required keys is imported successfully and saved unchanged. -/
theorem c10_import_presence_only_witness :
    (importData (.vobj [("tasks", .varr [JVal.vobj
      [("id", .vstr "t1"), ("title", .vstr ""), ("dueDate", .vstr "2020-99-99"),
       ("duration", .vnum 0), ("tag", .vstr "ok")]])])).success = true ∧
    (importData (.vobj [("tasks", .varr [JVal.vobj
      [("id", .vstr "t1"), ("title", .vstr ""), ("dueDate", .vstr "2020-99-99"),
       ("duration", .vnum 0), ("tag", .vstr "ok")]])])).savedTasks = some [JVal.vobj
      [("id", .vstr "t1"), ("title", .vstr ""), ("dueDate", .vstr "2020-99-99"),
       ("duration", .vnum 0), ("tag", .vstr "ok")]] ∧
    (validateTitleV (.vstr "")).valid = false ∧
    (validateDurationV (.vnum 0)).valid = false := by
  have h := c10_import_presence_only
    [("tasks", .varr [JVal.vobj
      [("id", .vstr "t1"), ("title", .vstr ""), ("dueDate", .vstr "2020-99-99"),
       ("duration", .vnum 0), ("tag", .vstr "ok")]])]
    [JVal.vobj
      [("id", .vstr "t1"), ("title", .vstr ""), ("dueDate", .vstr "2020-99-99"),
       ("duration", .vnum 0), ("tag", .vstr "ok")]]
    rfl
    (by
      intro t ht
      rw [List.mem_singleton] at ht
      subst ht
      exact ⟨_, rfl, by decide⟩)
  exact ⟨h.1, h.2, rfl, rfl⟩

theorem findGroup_groupInsert (m : List (String × List Task)) (t : Task) (tag : String) :
    (findGroup (groupInsert m t) tag).getD [] =
      if t.tag == tag then (findGroup m tag).getD [] ++ [t]
      else (findGroup m tag).getD [] := by
  induction m with
  | nil =>
    by_cases h : t.tag == tag <;> simp [groupInsert, findGroup, List.find?, h]
  | cons kv rest ih =>
    by_cases hk : kv.1 == t.tag
    · have hk' : kv.1 = t.tag := by exact beq_iff_eq.mp hk
      by_cases h : t.tag == tag
      · have h' : t.tag = tag := by exact beq_iff_eq.mp h
        simp [groupInsert, findGroup, List.find?, hk, hk', h, h']
      · have h' : ¬ t.tag = tag := by
          intro hh
          exact h (beq_iff_eq.mpr hh)
        have hkt : ¬ kv.1 = tag := by rw [hk']; exact h'
        have hbt : (kv.1 == tag) = false := by
          exact beq_eq_false_iff_ne.mpr hkt
        simp [groupInsert, findGroup, List.find?, hk, h, hbt]
    · have hk' : ¬ kv.1 = t.tag := by
        intro hh
        exact hk (beq_iff_eq.mpr hh)
      by_cases hkt : kv.1 == tag
      · have hkt' : kv.1 = tag := by exact beq_iff_eq.mp hkt
        have h' : ¬ t.tag = tag := by
          intro hh
          exact hk' (hkt'.trans hh.symm)
        have h : ¬ (t.tag == tag) = true := by
          intro hh
          exact h' (beq_iff_eq.mp hh)
        simp [groupInsert, findGroup, List.find?, hk, hkt, h]
      · have lhs : (findGroup (kv :: groupInsert rest t) tag).getD [] =
            (findGroup (groupInsert rest t) tag).getD [] := by
          simp [findGroup, List.find?, hkt]
        have rhs : (findGroup (kv :: rest) tag).getD [] = (findGroup rest tag).getD [] := by
          simp [findGroup, List.find?, hkt]
        simp only [groupInsert, hk, if_neg, Bool.false_eq_true, not_false_eq_true, lhs, rhs]
        exact ih

theorem flatten_groupInsert (m : List (String × List Task)) (t : Task) :
    ((groupInsert m t).map Prod.snd).flatten.Perm ((m.map Prod.snd).flatten ++ [t]) := by
  induction m with
  | nil => simp [groupInsert]
  | cons kv rest ih =>
    by_cases hk : kv.1 == t.tag
    · simp only [groupInsert, hk, if_pos, List.map_cons, List.flatten_cons]
      rw [List.append_assoc, List.append_assoc]
      exact List.Perm.append_left kv.2 List.perm_append_comm
    · simp only [groupInsert, hk, Bool.false_eq_true, not_false_eq_true, if_neg,
        List.map_cons, List.flatten_cons]
      rw [List.append_assoc]
      exact List.Perm.append_left kv.2 ih

theorem findGroup_foldl (ts : List Task) (m : List (String × List Task)) (tag : String) :
    (findGroup (ts.foldl groupInsert m) tag).getD [] =
      (findGroup m tag).getD [] ++ ts.filter (fun t => t.tag == tag) := by
  induction ts generalizing m with
  | nil => simp
  | cons t rest ih =>
    simp only [List.foldl_cons, List.filter_cons]
    rw [ih, findGroup_groupInsert]
    by_cases h : t.tag == tag
    · simp [h, List.append_assoc]
    · simp [h]

theorem flatten_foldl (ts : List Task) (m : List (String × List Task)) :
    ((ts.foldl groupInsert m).map Prod.snd).flatten.Perm ((m.map Prod.snd).flatten ++ ts) := by
  induction ts generalizing m with
  | nil => simp
  | cons t rest ih =>
    simp only [List.foldl_cons]
    refine (ih (groupInsert m t)).trans ?_
    refine ((flatten_groupInsert m t).append_right rest).trans ?_
    simp [List.append_assoc]

theorem groupInsert_of_no_key (m : List (String × List Task)) (t : Task)
    (h : m.any (fun kv => kv.1 == t.tag) = false) :
    groupInsert m t = m ++ [(t.tag, [t])] := by
  induction m with
  | nil => rfl
  | cons kv rest ih =>
    rw [List.any_cons, Bool.or_eq_false_iff] at h
    rw [groupInsert, if_neg (by rw [h.1]; exact Bool.false_ne_true), ih h.2]
    rfl

theorem groupLoop_eq_foldl : ∀ (ts : List Task) (m : List (String × List Task)),
    (∀ t ∈ ts, protoKeys.contains t.tag = false) →
    groupLoop m ts = some (ts.foldl groupInsert m) := by
  intro ts
  induction ts with
  | nil => intro m _; rfl
  | cons t rest ih =>
    intro m h
    rw [groupLoop, List.foldl_cons]
    by_cases hk : m.any (fun kv => kv.1 == t.tag) = true
    · rw [if_pos hk]
      exact ih (groupInsert m t) (fun u hu => h u (List.mem_cons_of_mem t hu))
    · have hk' : m.any (fun kv => kv.1 == t.tag) = false := by
        cases hq : m.any (fun kv => kv.1 == t.tag) with
        | false => rfl
        | true => exact absurd hq hk
      rw [if_neg hk]
      rw [if_neg (by rw [h t (List.mem_cons_self t rest)]; exact Bool.false_ne_true)]
      rw [← groupInsert_of_no_key m t hk']
      exact ih (groupInsert m t) (fun u hu => h u (List.mem_cons_of_mem t hu))

/-- C8, counterexample. The claim quantifies over every task collection
and says no task is lost. But the `grouped = {}` object inherits
`Object.prototype`: for a task whose tag is "toString" — an all-letter
tag that `validateTag` ACCEPTS (third conjunct) — `grouped["toString"]`
is the truthy inherited function, the init is skipped, `.push` throws a
TypeError, and the catch returns the empty object: the whole collection
is lost (first conjunct), so the flattened groups are not a permutation
of the collection (second conjunct). -/
theorem c8_counterexample_proto_tag :
    getTasksByTagGrouped
      [{ id := "a", title := "Read book", dueDate := "2026-01-01", duration := "60",
         tag := "toString" }] = [] ∧
    ¬ ((getTasksByTagGrouped
      [{ id := "a", title := "Read book", dueDate := "2026-01-01", duration := "60",
         tag := "toString" }]).map Prod.snd).flatten.Perm
      [{ id := "a", title := "Read book", dueDate := "2026-01-01", duration := "60",
         tag := "toString" }] ∧
    (validateTagS "toString").valid = true := by
  exact ⟨rfl, by decide, rfl⟩

/-- C8, amended. Provided no task's tag names an inherited
`Object.prototype` member (user-meaningful tags never do, but such tags
do pass `validateTag`), grouping by tag places every task into exactly
the group keyed by its tag, preserves the original collection order
within each group (each group equals the order-preserving filter of the
collection by that tag), and flattening all groups yields a permutation
of the original collection — no task lost or duplicated. -/
theorem c8_group_by_tag_partition (ts : List Task)
    (hproto : ∀ t ∈ ts, protoKeys.contains t.tag = false) :
    (∀ tag : String, (findGroup (getTasksByTagGrouped ts) tag).getD [] =
      ts.filter (fun t => t.tag == tag)) ∧
    ((getTasksByTagGrouped ts).map Prod.snd).flatten.Perm ts := by
  have hg : getTasksByTagGrouped ts = ts.foldl groupInsert [] := by
    rw [getTasksByTagGrouped, groupLoop_eq_foldl ts [] hproto]
  constructor
  · intro tag
    have h := findGroup_foldl ts [] tag
    rw [hg]
    simpa [findGroup] using h
  · have h := flatten_foldl ts []
    rw [hg]
    simpa using h

/-- C8, witness: the partition applied to a concrete two-tag collection
with ordinary tags. -/
theorem c8_group_by_tag_partition_witness :
    (findGroup (getTasksByTagGrouped
      [{ id := "a", title := "A", dueDate := "2026-01-01", duration := "60", tag := "Academic" },
       { id := "b", title := "B", dueDate := "2026-01-02", duration := "30", tag := "Social" },
       { id := "c", title := "C", dueDate := "2026-01-03", duration := "45", tag := "Academic" }])
      "Academic").getD [] =
      [{ id := "a", title := "A", dueDate := "2026-01-01", duration := "60", tag := "Academic" },
       { id := "c", title := "C", dueDate := "2026-01-03", duration := "45", tag := "Academic" }] ∧
    ((getTasksByTagGrouped
      [{ id := "a", title := "A", dueDate := "2026-01-01", duration := "60", tag := "Academic" },
       { id := "b", title := "B", dueDate := "2026-01-02", duration := "30", tag := "Social" },
       { id := "c", title := "C", dueDate := "2026-01-03", duration := "45", tag := "Academic" }]
      ).map Prod.snd).flatten.Perm
      [{ id := "a", title := "A", dueDate := "2026-01-01", duration := "60", tag := "Academic" },
       { id := "b", title := "B", dueDate := "2026-01-02", duration := "30", tag := "Social" },
       { id := "c", title := "C", dueDate := "2026-01-03", duration := "45", tag := "Academic" }] := by
  have h := c8_group_by_tag_partition
    [{ id := "a", title := "A", dueDate := "2026-01-01", duration := "60", tag := "Academic" },
     { id := "b", title := "B", dueDate := "2026-01-02", duration := "30", tag := "Social" },
     { id := "c", title := "C", dueDate := "2026-01-03", duration := "45", tag := "Academic" }]
    (by decide)
  refine ⟨?_, h.2⟩
  rw [h.1 "Academic"]
  rfl

/-- C5, counterexample. The claim says a non-completed task due exactly N
days from today is always included. `new Date("YYYY-MM-DD")` parses to
midnight UTC while `today`/`futureDate` are LOCAL midnights: in an
environment 540 minutes east of UTC (UTC+9), on local day 2026-10-11 with
N = 7, a task due 2026-10-18 — exactly 7 days from today, as the second
conjunct checks — is excluded (the upper bound lies 540 minutes before
the task's parsed due instant). -/
theorem c5_counterexample_week_boundary :
    getTasksDueInDays 540 (daysFromCivil 2026 10 11) 7
      [{ id := "m", title := "M", dueDate := "2026-10-18", duration := "60", tag := "x" }] = [] ∧
    parseISODay "2026-10-18" = some (daysFromCivil 2026 10 11 + 7) := by
  constructor <;> decide

/-- C5, amended. In a UTC environment (offset 0) the claim's window is
exact: `getTasksDueInDays` returns precisely the non-completed tasks
whose due date parses to a calendar day between today and today + N
inclusive (tasks with unparseable due dates are dropped); with a nonzero
UTC offset the boundary days shift, as the counterexample shows. -/
theorem c5_due_window_utc (todayDay days : Int) (ts : List Task) :
    getTasksDueInDays 0 todayDay days ts =
      ts.filter (fun t =>
        match parseISODay t.dueDate with
        | some dd => decide (todayDay ≤ dd) && decide (dd ≤ todayDay + days) && !t.completed
        | none => false) := by
  unfold getTasksDueInDays
  refine List.filter_congr ?_
  intro t _
  cases h : parseISODay t.dueDate with
  | none => rfl
  | some dd =>
    have h1 : (decide (todayDay * 1440 - 0 ≤ dd * 1440)) = (decide (todayDay ≤ dd)) := by
      rw [decide_eq_decide]
      omega
    have h2 : (decide (dd * 1440 ≤ (todayDay + days) * 1440 - 0)) =
        (decide (dd ≤ todayDay + days)) := by
      rw [decide_eq_decide]
      constructor <;> intro hh <;> nlinarith
    simp only [h1, h2]

/-- C1, counterexample. The claim says every task produced by the
lifecycle operations satisfies `completed == true` iff
`status == "Completed"`. But `addTask` copies `taskData.status` while
unconditionally setting `completed: false`: adding a task whose data
carries `status: "Completed"` stores a record with
`status = "Completed"` and `completed = false`, violating the iff. -/
theorem c1_counterexample_addTask_completed_status :
    invB (addTask "2026-01-01T00:00:00.000Z" "task_1"
      { title := "Essay", dueDate := "2026-02-01", duration := "60", tag := "Academic",
        status := some "Completed" } []) = false := by
  rfl

theorem invTask_applyUpdates (now : String) (u : TaskUpdates) (t : StoredTask)
    (hc : consistentU u) (ht : t.completed = (t.status == "Completed")) :
    (applyUpdates now u t).completed = ((applyUpdates now u t).status == "Completed") := by
  rcases hc with ⟨hs, hb⟩ | ⟨st, b, hs, hb, hiff⟩
  · simp [applyUpdates, hs, hb, ht]
  · simp only [applyUpdates, hs, hb, Option.getD_some]
    cases b with
    | true =>
      have : st = "Completed" := hiff.mp rfl
      simp [this]
    | false =>
      have : ¬ st = "Completed" := by
        intro hh
        exact Bool.false_ne_true (hiff.mpr hh)
      simp [beq_eq_false_iff_ne.mpr this]

theorem invB_updateTask (now id : String) (u : TaskUpdates) (s : List StoredTask)
    (hc : consistentU u) (hs : invB s = true) : invB (updateTask now id u s) = true := by
  induction s with
  | nil => rfl
  | cons t rest ih =>
    rw [invB, List.all_cons] at hs
    have h1 : (t.completed == (t.status == "Completed")) = true := by
      exact (Bool.and_eq_true _ _).mp hs |>.1
    have h2 : invB rest = true := by
      exact (Bool.and_eq_true _ _).mp hs |>.2
    by_cases hid : t.id == id
    · rw [updateTask]
      rw [if_pos hid]
      rw [invB, List.all_cons]
      refine (Bool.and_eq_true _ _).mpr ⟨?_, h2⟩
      exact beq_iff_eq.mpr (invTask_applyUpdates now u t hc (beq_iff_eq.mp h1))
    · rw [updateTask]
      rw [if_neg hid]
      rw [invB, List.all_cons]
      exact (Bool.and_eq_true _ _).mpr ⟨h1, ih h2⟩

/-- C1, amended. The invariant `completed == true` iff
`status == "Completed"` holds for every collection reachable from the
empty store via the lifecycle operations, provided `addTask` is not
handed `status: "Completed"` in its input data and `updateTask` is only
handed updates that either leave both `status` and `completed` alone or
set both consistently — which is exactly what `completeTask` and
`uncompleteTask` do, and what the application's add/edit form (which
never sends `status` or `completed`) does. -/
theorem c1_lifecycle_invariant (s : List StoredTask) (h : Reach s) : invB s = true := by
  induction h with
  | init => rfl
  | add now newId d s hr hst ih =>
    rw [addTask, invB, List.all_append]
    refine (Bool.and_eq_true _ _).mpr ⟨ih, ?_⟩
    rw [List.all_cons, List.all_nil, Bool.and_true]
    cases hds : d.status with
    | none => rfl
    | some st =>
      by_cases he : st == ""
      · simp [hds, he]
      · have hne : ¬ st = "Completed" := by
          intro hh
          exact hst (by rw [hds, hh])
        simp [hds, he, beq_eq_false_iff_ne.mpr hne]
  | upd now id u s hr hc ih => exact invB_updateTask now id u s hc ih
  | compl now id s hr ih =>
    refine invB_updateTask now id _ s ?_ ih
    exact Or.inr ⟨"Completed", true, rfl, rfl, by simp⟩
  | uncompl now id s hr ih =>
    refine invB_updateTask now id _ s ?_ ih
    exact Or.inr ⟨"Todo", false, rfl, rfl, by simp⟩

/-- C1, witness: adding a task from ordinary form data (no status) and
then completing it reaches a concrete store, and the invariant holds
there. -/
theorem c1_lifecycle_invariant_witness :
    invB (completeTask "2026-01-02T00:00:00.000Z" "task_1"
      (addTask "2026-01-01T00:00:00.000Z" "task_1"
        { title := "Essay", dueDate := "2026-02-01", duration := "60", tag := "Academic" }
        [])) = true := by
  refine c1_lifecycle_invariant _ ?_
  refine Reach.compl _ _ _ ?_
  refine Reach.add _ _ _ _ Reach.init ?_
  decide

theorem dropWhile_ws_eq_self (l : List Char)
    (h : ∀ c, l.head? = some c → isWs c = false) : l.dropWhile isWs = l := by
  cases l with
  | nil => rfl
  | cons c r =>
    rw [List.dropWhile_cons]
    rw [h c rfl]
    simp

theorem jsTrim_eq_self (l : List Char) (h : noEdgeWs l = true) : jsTrim l = l := by
  have hh : ∀ c, l.head? = some c → isWs c = false := by
    intro c hc
    rw [noEdgeWs, Bool.and_eq_true] at h
    have := h.1
    rw [hc] at this
    simpa using this
  have hl : ∀ c, l.getLast? = some c → isWs c = false := by
    intro c hc
    rw [noEdgeWs, Bool.and_eq_true] at h
    have := h.2
    rw [hc] at this
    simpa using this
  rw [jsTrim, dropWhile_ws_eq_self l hh]
  have hrev : ∀ c, l.reverse.head? = some c → isWs c = false := by
    intro c hc
    rw [List.head?_reverse] at hc
    exact hl c hc
  rw [dropWhile_ws_eq_self l.reverse hrev, List.reverse_reverse]

theorem titleAux_of : ∀ (p : Bool) (l : List Char),
    noDoubleWs l = true →
    (∀ c, l.getLast? = some c → isWs c = false) →
    (p = true → ∃ c r, l = c :: r ∧ isWs c = false) →
    titleAux p l = true := by
  intro p l
  induction l generalizing p with
  | nil =>
    intro _ _ hp
    cases p with
    | false => rfl
    | true =>
      obtain ⟨c, r, hcr, _⟩ := hp rfl
      cases hcr
  | cons c r ih =>
    intro hdw hlast hp
    rw [titleAux]
    by_cases hc : isWs c = true
    · have hpf : p = false := by
        cases p with
        | false => rfl
        | true =>
          obtain ⟨e, r2, hcr, hns⟩ := hp rfl
          cases hcr
          rw [hc] at hns
          cases hns
      subst hpf
      rw [hc]
      simp only [if_true, Bool.not_false, Bool.true_and]
      cases r with
      | nil =>
        have := hlast c rfl
        rw [hc] at this
        cases this
      | cons d r2 =>
        have hd : isWs d = false := by
          rw [noDoubleWs, Bool.and_eq_true] at hdw
          have h1 := hdw.1
          rw [hc] at h1
          simpa using h1
        refine ih true ?_ ?_ ?_
        · rw [noDoubleWs, Bool.and_eq_true] at hdw
          exact hdw.2
        · intro e he
          refine hlast e ?_
          rw [List.getLast?_cons_cons]
          exact he
        · intro _
          exact ⟨d, r2, rfl, hd⟩
    · have hc' : isWs c = false := by
        cases hw : isWs c with
        | false => rfl
        | true => exact absurd hw hc
      rw [hc']
      simp only [Bool.false_eq_true, if_false]
      cases r with
      | nil => rfl
      | cons d r2 =>
        refine ih false ?_ ?_ ?_
        · rw [noDoubleWs, Bool.and_eq_true] at hdw
          exact hdw.2
        · intro e he
          refine hlast e ?_
          rw [List.getLast?_cons_cons]
          exact he
        · intro hh
          cases hh

theorem titleShape_of (l : List Char) (hne : l ≠ [])
    (hedge : noEdgeWs l = true) (hdw : noDoubleWs l = true) : titleShape l = true := by
  cases l with
  | nil => exact absurd rfl hne
  | cons c r =>
    rw [titleShape]
    rw [noEdgeWs, Bool.and_eq_true] at hedge
    have hc : isWs c = false := by
      have := hedge.1
      simpa using this
    rw [hc]
    simp only [Bool.not_false, Bool.true_and]
    refine titleAux_of false r ?_ ?_ ?_
    · cases r with
      | nil => rfl
      | cons d r2 =>
        rw [noDoubleWs, Bool.and_eq_true] at hdw
        exact hdw.2
    · intro e he
      have h2 := hedge.2
      cases r with
      | nil => cases he
      | cons d r2 =>
        rw [List.getLast?_cons_cons] at h2
        rw [he] at h2
        simpa using h2
    · intro hh
      cases hh

/-- C3. Every string of length 3..100 with no leading or trailing
whitespace, no two adjacent whitespace characters, and no immediately
repeated word (case-insensitively, in the sense of the duplicate-word
pattern: two consecutive word runs separated by whitespace and equal up
to case) is accepted by `validateTitle`; and each of the five spec
examples — empty, too short, leading space, doubled space, repeated
word — is rejected. -/
theorem c3_validateTitle_accepts :
    (∀ s : String, 3 ≤ s.length → s.length ≤ 100 → noEdgeWs s.data = true →
      noDoubleWs s.data = true → hasDupWordS s = false →
      (validateTitleS s).valid = true) ∧
    (validateTitleS "").valid = false ∧
    (validateTitleS "ab").valid = false ∧
    (validateTitleS " abc").valid = false ∧
    (validateTitleS "abc  def").valid = false ∧
    (validateTitleS "go go now").valid = false := by
  refine ⟨?_, rfl, rfl, rfl, rfl, rfl⟩
  intro s h3 h100 hedge hdw hdup
  have hne : s ≠ "" := by
    intro hh
    subst hh
    simp [String.length] at h3
  have hnd : s.data ≠ [] := by
    intro hh
    apply hne
    cases s with
    | mk d =>
      simp only at hh
      rw [hh]
  have htrim : jsTrimS s = s := by
    rw [jsTrimS, jsTrim_eq_self s.data hedge]
  rw [validateTitleS]
  rw [if_neg (by simpa using hne)]
  rw [htrim]
  rw [if_neg (by omega)]
  rw [if_neg (by omega)]
  rw [if_neg (by simp)]
  rw [titleShape_of s.data hnd hedge hdw]
  simp only [Bool.not_true, Bool.false_eq_true, if_false]
  rw [hdup]
  simp

/-- C3, witness: a concrete title satisfying the hypotheses is valid. -/
theorem c3_validateTitle_accepts_witness :
    (validateTitleS "buy milk").valid = true :=
  c3_validateTitle_accepts.1 "buy milk" (by decide) (by decide) (by decide) (by decide)
    (by decide)

/-- C4. `validateDueDate` accepts a string exactly when it has
YYYY-MM-DD shape, its components round-trip through the JS date
reconstruction (which rolls overflowing days into the next month and
maps two-digit years into 1900..1999, so both fail the round-trip), and
the date lies in the window from one year in the past to two years in
the future, all bounds derived from the single instant `now` of the
call. In particular "2024-02-30" is rejected at EVERY instant (the
reconstruction rolls it to March 1), "2024-02-29" is accepted at an
instant within range (2024 is a leap year), and dates more than one year
before or more than two years after that instant are rejected. -/
theorem c4_validateDueDate_characterization :
    (∀ (now : NowT) (date : String),
      (validateDueDateS now date).valid = dueDateOk now date) ∧
    (∀ now : NowT, (validateDueDateS now "2024-02-30").valid = false) ∧
    (validateDueDateS ⟨2024, 6, 1, 0⟩ "2024-02-29").valid = true ∧
    (validateDueDateS ⟨2024, 6, 1, 0⟩ "2023-05-31").valid = false ∧
    (validateDueDateS ⟨2024, 6, 1, 0⟩ "2026-06-02").valid = false := by
  refine ⟨?_, ?_, rfl, rfl, rfl⟩
  · intro now date
    rw [validateDueDateS, dueDateOk]
    by_cases h0 : (date == "") = true
    · have hd : date = "" := by exact beq_iff_eq.mp h0
      subst hd
      rfl
    · rw [if_neg h0]
      by_cases h1 : dateShape (jsTrimS date).data = true
      · by_cases h2 : (mkDateJS (parseYMD (jsTrimS date).data).1
            (parseYMD (jsTrimS date).data).2.1 (parseYMD (jsTrimS date).data).2.2 ==
            parseYMD (jsTrimS date).data) = true
        · by_cases h3 : dLt (mkDateJS (parseYMD (jsTrimS date).data).1
              (parseYMD (jsTrimS date).data).2.1 (parseYMD (jsTrimS date).data).2.2)
              (normDate (now.y - 1) now.m now.d) = true
          · simp [h1, h2, h3, bne]
          · by_cases h4 : dtLt (normDate (now.y + 2) now.m now.d, now.tod)
                (mkDateJS (parseYMD (jsTrimS date).data).1
                  (parseYMD (jsTrimS date).data).2.1
                  (parseYMD (jsTrimS date).data).2.2, 0) = true
            · simp [h1, h2, h3, h4, bne]
            · simp [h1, h2, h3, h4, bne]
        · simp [h1, h2, bne]
      · have h1' : dateShape (jsTrimS date).data = false := by
          cases hq : dateShape (jsTrimS date).data with
          | false => rfl
          | true => exact absurd hq h1
        simp [h1', bne]
  · intro now
    rfl

/-- C9, counterexample. The claim says every one of the five validators
returns `valid == false` for wrong-type input, listing numbers among the
wrong-type values. `validateDuration` instead coerces its argument with
`String(duration)` before validating: the number 120 becomes the string
"120" and is ACCEPTED. -/
theorem c9_counterexample_duration_number :
    (validateDurationV (.vnum 120)).valid = true := by
  rfl

/-- C9, amended. The validators are total functions returning a
`{valid, error}` record (totality, purity and absence of exceptions hold
by construction in this embedding). For absent input (null/undefined)
each of the five rejects with its specific reason string; for any
non-string (wrong-type) input `validateTitle`, `validateDueDate`,
`validateTag` and `validatePriority` reject; `validateDuration` is the
exception: it stringifies non-string input, so a number whose decimal
form is a positive integer of at most 1440 is accepted (last conjunct,
matching the counterexample). -/
theorem c9_validators_absent_and_wrong_type :
    (∀ v : JVal, isAbsent v = true →
      validateTitleV v = ⟨false, "Title is required"⟩ ∧
      validateDurationV v = ⟨false, "Duration is required"⟩ ∧
      (∀ now : NowT, validateDueDateV now v = ⟨false, "Due date is required"⟩) ∧
      validateTagV v = ⟨false, "Tag is required"⟩ ∧
      validatePriorityV v = ⟨false, "Priority must be High, Medium, or Low"⟩) ∧
    (∀ v : JVal, (∀ s : String, v ≠ .vstr s) →
      (validateTitleV v).valid = false ∧
      (∀ now : NowT, (validateDueDateV now v).valid = false) ∧
      (validateTagV v).valid = false ∧
      (validatePriorityV v).valid = false) ∧
    validateDurationV (.vnum 120) = ⟨true, ""⟩ := by
  refine ⟨?_, ?_, rfl⟩
  · intro v hv
    cases v with
    | vnull => exact ⟨rfl, rfl, fun _ => rfl, rfl, rfl⟩
    | vundef => exact ⟨rfl, rfl, fun _ => rfl, rfl, rfl⟩
    | vbool b => cases hv
    | vnum n => cases hv
    | vstr s => cases hv
    | varr l => cases hv
    | vobj fs => cases hv
  · intro v hv
    cases v with
    | vnull => exact ⟨rfl, fun _ => rfl, rfl, rfl⟩
    | vundef => exact ⟨rfl, fun _ => rfl, rfl, rfl⟩
    | vbool b => exact ⟨rfl, fun _ => rfl, rfl, rfl⟩
    | vnum n => exact ⟨rfl, fun _ => rfl, rfl, rfl⟩
    | vstr s => exact absurd rfl (hv s)
    | varr l => exact ⟨rfl, fun _ => rfl, rfl, rfl⟩
    | vobj fs => exact ⟨rfl, fun _ => rfl, rfl, rfl⟩

/-- C9, witness: the two hypothesis-bearing parts applied at concrete
inputs — the absent value `null` and the wrong-type value `5`. -/
theorem c9_validators_absent_and_wrong_type_witness :
    validateTitleV .vnull = ⟨false, "Title is required"⟩ ∧
    (validateTitleV (.vnum 5)).valid = false ∧
    (validatePriorityV (.vnum 5)).valid = false := by
  refine ⟨(c9_validators_absent_and_wrong_type.1 .vnull rfl).1, ?_, ?_⟩
  · exact (c9_validators_absent_and_wrong_type.2.1 (.vnum 5)
      (fun s h => JVal.noConfusion h)).1
  · exact (c9_validators_absent_and_wrong_type.2.1 (.vnum 5)
      (fun s h => JVal.noConfusion h)).2.2.2

end Planner
